import Mathlib

/-!
Shallow embedding of the meanscout-webrtc signaling relay (src/src/index.ts).
The source file holds two variants: a polling HTTP relay (namespace Polling)
and a push WebSocket relay (namespace Push).  Opaque any-typed payloads are
modelled as an abstract String.  The process-wide mutable room table is
modelled as explicit state of type String to Option Room, threaded through
the handlers.  Machine time is modelled as Nat milliseconds.
-/

abbrev Payload := String

namespace Polling

/-- The kind tag of a storable message: the offer, answer, ice-candidate and
join arms of the StorableMessage union in the source. -/
inductive StorableType
  | offer | answer | iceCandidate | join
deriving DecidableEq

/-- A message between peers that persists in a room, mirroring the source
StorableMessage union.  The variant-specific opaque field (offer, answer,
candidate, peerData) is collapsed into one opaque payload field; sendingTo
and deliveredTo are optional exactly as in the source. -/
structure StorableMessage where
  type : StorableType
  roomId : String
  peerId : String
  payload : Payload
  sendingTo : Option (List String)
  deliveredTo : Option (List String)
deriving DecidableEq

/-- A peer entry of a polling-variant room: the inline record in Room.peers. -/
structure PollPeer where
  id : String
  data : Payload
  lastSeenAt : Nat
deriving DecidableEq

/-- A polling-variant room: grouping of peers and messages between peers. -/
structure Room where
  id : String
  peers : List PollPeer
  messages : List StorableMessage
  createdAt : Nat
deriving DecidableEq

/-- An inbound signaling message: a storable message, a leave, or a ping. -/
inductive SignalingMessage
  | storable (m : StorableMessage)
  | leave (roomId : String) (peerId : String)
  | ping
deriving DecidableEq

/-- The roomId of an inbound message; the empty string models a missing or
empty (falsy) field, which the source rejects with !message.roomId. -/
def SignalingMessage.roomId : SignalingMessage → String
  | .storable m => m.roomId
  | .leave r _ => r
  | .ping => ""

/-- The peerId of an inbound message; the empty string models a missing or
empty (falsy) field. -/
def SignalingMessage.peerId : SignalingMessage → String
  | .storable m => m.peerId
  | .leave _ p => p
  | .ping => ""

/-- A reply of the polling relay: an error body, a pong body, or a room body. -/
inductive Response
  | error (e : String)
  | pong
  | room (r : Room)
deriving DecidableEq

/-- The messages carried by a room reply; an error or pong carries none. -/
def Response.newMessages : Response → List StorableMessage
  | .room r => r.messages
  | _ => []

/-- The process-wide room registry, keyed by room id. -/
abbrev Rooms := String → Option Room

/-- The empty registry. -/
def emptyRooms : Rooms := fun _ => none

/-- Stores a room under an id, as rooms.set does in the source. -/
def setRoom (rs : Rooms) (id : String) (r : Room) : Rooms :=
  fun x => if x = id then some r else rs x

/-- A freshly created room with no peers and no messages. -/
def freshRoom (id : String) (now : Nat) : Room :=
  { id := id, peers := [], messages := [], createdAt := now }

/-- The room timeout constant of the source; its name says five minutes but
its value 30 * 60 * 1000 * 5 is 9000000 ms, i.e. 150 minutes. -/
def ROOM_TIMEOUT_5_MINUTES : Nat := 30 * 60 * 1000 * 5

/-- The periodic sweep: evicts every room whose age relative to createdAt
exceeds the timeout, mirroring the scheduled handler. -/
def scheduled (scheduledTime : Nat) (rooms : Rooms) : Rooms :=
  fun id =>
    match rooms id with
    | none => none
    | some r =>
      if scheduledTime - r.createdAt > ROOM_TIMEOUT_5_MINUTES then none else some r

/-- Handles a message from a peer, mirroring the source post handler.  The
body is none when the request body is unparseable JSON.  Returns the reply
and the updated registry. -/
def post (body : Option SignalingMessage) (now : Nat) (rooms : Rooms) :
    Response × Rooms :=
  match body with
  | none => (.error "Invalid JSON", rooms)
  | some .ping => (.pong, rooms)
  | some (.storable m) =>
    if m.roomId = "" ∨ m.peerId = "" then
      (.error "roomId and peerId props are required", rooms)
    else
      let room := (rooms m.roomId).getD (freshRoom m.roomId now)
      match m.type with
      | .join =>
        let peers :=
          if room.peers.any (fun p => p.id == m.peerId) then
            room.peers.map (fun p =>
              if p.id == m.peerId then { p with data := m.payload, lastSeenAt := now } else p)
          else
            room.peers ++ [{ id := m.peerId, data := m.payload, lastSeenAt := now }]
        let msgs2 := room.messages ++ [{ m with deliveredTo := some [] }]
        let room2 := { room with peers := peers, messages := msgs2 }
        (.room room2, setRoom rooms m.roomId room2)
      | _ =>
        let msgs2 := room.messages ++ [{ m with deliveredTo := some [] }]
        let room2 := { room with messages := msgs2 }
        (.room room2, setRoom rooms m.roomId room2)
  | some (.leave rid pid) =>
    if rid = "" ∨ pid = "" then
      (.error "roomId and peerId props are required", rooms)
    else
      let room := (rooms rid).getD (freshRoom rid now)
      let room2 := { room with peers := room.peers.filter (fun p => !(p.id == pid)) }
      (.room room2, setRoom rooms rid room2)

/-- The selection test of the query handler: not the author, listed in
sendingTo (an absent sendingTo selects nobody, as the optional chaining in
the source yields a falsy undefined), and not yet delivered to this peer. -/
def pullSelect (peerId : String) (m : StorableMessage) : Bool :=
  (!(m.peerId == peerId)) &&
    ((m.sendingTo.getD []).contains peerId) &&
    (!((m.deliveredTo.getD []).contains peerId))

/-- Marks a message as received by a peer: initialises an absent deliveredTo
to the empty list and appends the peer id. -/
def markDelivered (peerId : String) (m : StorableMessage) : StorableMessage :=
  { m with deliveredTo := some (m.deliveredTo.getD [] ++ [peerId]) }

/-- The recipient count used by the purge test for non-join messages: the
source sendingTo?.length or 1, where an absent or empty sendingTo yields 1. -/
def sendingToLen (m : StorableMessage) : Nat :=
  match m.sendingTo with
  | some l => if l.length = 0 then 1 else l.length
  | none => 1

/-- The retention test of the purge pass: a message with an absent
deliveredTo is kept; a join is kept while some current room peer is absent
from its deliveredTo; any other message is kept while its deliveredTo is
shorter than its recipient count. -/
def retainB (peers : List PollPeer) (m : StorableMessage) : Bool :=
  match m.deliveredTo with
  | none => true
  | some dt =>
    if m.type = .join then
      peers.any (fun p => !(dt.contains p.id))
    else
      decide (dt.length < sendingToLen m)

/-- The per-message effect of a query by a peer: a selected message is
marked delivered to the peer, any other message is untouched. -/
def pullStep (peerId : String) (m : StorableMessage) : StorableMessage :=
  if pullSelect peerId m then markDelivered peerId m else m

/-- Handles a query for room data from a peer, mirroring the source get
handler: selects the undelivered messages addressed to the peer, marks them
delivered, purges fully delivered messages, and replies with the room
carrying only the newly delivered messages. -/
def get (roomId peerId : String) (now : Nat) (rooms : Rooms) :
    Response × Rooms :=
  if roomId = "" ∨ peerId = "" then
    (.error "roomId and peerId params are required", rooms)
  else
    match rooms roomId with
    | none => (.room (freshRoom roomId now), rooms)
    | some room =>
      let delivered := (room.messages.filter (pullSelect peerId)).map (markDelivered peerId)
      let marked := room.messages.map (pullStep peerId)
      let room2 := { room with messages := marked.filter (retainB room.peers) }
      (.room { room2 with messages := delivered }, setRoom rooms roomId room2)

end Polling

namespace Push

/-- The three RTC message kinds of the push variant. -/
inductive RTCType
  | offer | answer | iceCandidate
deriving DecidableEq

/-- A peer entry of a push-variant room.  A live WebSocket connection is
modelled as a Nat handle; socket is none when the peer has no connection. -/
structure Peer where
  id : String
  info : Payload
  socket : Option Nat
deriving DecidableEq

/-- A push-variant room: a group of peers. -/
structure Room where
  id : String
  peers : List Peer
deriving DecidableEq

/-- A message created by a client, sent to this server. -/
inductive ClientMessage
  | join (roomId : String) (peerId : String) (peerInfo : Payload)
  | rtc (t : RTCType) (roomId : String) (peerId : String) (toPeerId : String) (rtcData : Payload)
  | leave (roomId : String) (peerId : String)
  | ping
deriving DecidableEq

/-- The roomId of a client message; the empty string models a missing or
empty (falsy) field. -/
def ClientMessage.roomId : ClientMessage → String
  | .join r _ _ => r
  | .rtc _ r _ _ _ => r
  | .leave r _ => r
  | .ping => ""

/-- The peerId of a client message; the empty string models a missing or
empty (falsy) field. -/
def ClientMessage.peerId : ClientMessage → String
  | .join _ p _ => p
  | .rtc _ _ p _ _ => p
  | .leave _ p => p
  | .ping => ""

/-- A message created by this server, to be sent to one or many peers. -/
inductive ServerMessage
  | roomInfo (roomId : String) (peers : List (String × Payload))
  | peerJoin (peerId : String) (peerInfo : Payload)
  | peerRTC (t : RTCType) (peerId : String) (data : Payload)
  | peerLeave (peerId : String)
  | pong
  | error (e : String)
deriving DecidableEq

/-- Tests whether a server message is an error reply. -/
def ServerMessage.isErr : ServerMessage → Bool
  | .error _ => true
  | _ => false

/-- The push-variant registry, keyed by room id. -/
abbrev Rooms := String → Option Room

/-- The empty push registry. -/
def emptyRooms : Rooms := fun _ => none

/-- Stores a room under an id. -/
def setRoom (rs : Rooms) (id : String) (r : Room) : Rooms :=
  fun x => if x = id then some r else rs x

/-- Removes a room from the registry, as rooms.delete does in the source. -/
def eraseRoom (rs : Rooms) (id : String) : Rooms :=
  fun x => if x = id then none else rs x

/-- The (roomId, peerId) identity a connection is bound to; the source
dataForThisSocket value, with the source field order peerId then roomId. -/
structure Binding where
  peerId : String
  roomId : String
deriving DecidableEq

/-- The outcome of handling one WebSocket event: the messages sent (each a
connection handle paired with a server message), the connection binding
after the event, and the registry after the event. -/
structure Effect where
  sends : List (Nat × ServerMessage)
  binding : Option Binding
  rooms : Rooms

/-- Removes a peer from a room, then either notifies the remaining peers or
deletes the now-empty room, mirroring handlePeerLeave. -/
def handlePeerLeave (peerId : String) (room : Room) (rooms : Rooms) :
    List (Nat × ServerMessage) × Rooms :=
  let peers := room.peers.filter (fun p => !(p.id == peerId))
  if peers.length ≠ 0 then
    (peers.filterMap (fun p => p.socket.map (fun s => (s, ServerMessage.peerLeave peerId))),
     setRoom rooms room.id { room with peers := peers })
  else
    ([], eraseRoom rooms room.id)

/-- The core of the message handler, entered after validation: fetches or
creates the room, installs the binding when absent, and dispatches on the
message kind.  The server argument is the handle of the connection the
message arrived on.  The force-close of a replaced connection on re-join is
not observable in this model (closing emits no server message). -/
def wsCore (server : Nat) (binding : Option Binding) (rooms : Rooms)
    (msg : ClientMessage) : Effect :=
  let room := (rooms msg.roomId).getD { id := msg.roomId, peers := [] }
  let rooms1 := if (rooms msg.roomId).isSome then rooms else setRoom rooms msg.roomId room
  let binding1 := match binding with
    | none => some { peerId := msg.peerId, roomId := msg.roomId }
    | some b => some b
  match msg with
  | .join rid pid info =>
    let peers :=
      if room.peers.any (fun p => p.id == pid) then
        room.peers.map (fun p =>
          if p.id == pid then { p with info := info, socket := some server } else p)
      else
        room.peers ++ [{ id := pid, info := info, socket := some server }]
    let room2 := { room with peers := peers }
    let rooms2 := setRoom rooms1 rid room2
    let broadcasts := (room2.peers.filter (fun p => !(p.id == pid))).filterMap
      (fun p => p.socket.map (fun s => (s, ServerMessage.peerJoin pid info)))
    let snapshot := (server, ServerMessage.roomInfo room2.id
      (room2.peers.map (fun p => (p.id, p.info))))
    { sends := broadcasts ++ [snapshot], binding := binding1, rooms := rooms2 }
  | .rtc t _ pid toPid d =>
    let sends := match room.peers.find? (fun p => p.id == toPid) with
      | some p =>
        match p.socket with
        | some s => [(s, ServerMessage.peerRTC t pid d)]
        | none => []
      | none => []
    { sends := sends, binding := binding1, rooms := rooms1 }
  | .leave _ pid =>
    let res := handlePeerLeave pid room rooms1
    { sends := res.1, binding := none, rooms := res.2 }
  | .ping => { sends := [(server, ServerMessage.pong)], binding := binding, rooms := rooms }

/-- Handles one WebSocket message event, mirroring the message listener in
handleWebSocket: parse failure (body none) and ping reply first, then the
required-field checks, then the binding-identity checks, then the core. -/
def handleWSMessage (server : Nat) (binding : Option Binding) (rooms : Rooms)
    (body : Option ClientMessage) : Effect :=
  match body with
  | none => { sends := [(server, ServerMessage.error "Invalid JSON")], binding := binding, rooms := rooms }
  | some .ping => { sends := [(server, ServerMessage.pong)], binding := binding, rooms := rooms }
  | some msg =>
    if msg.roomId = "" then
      { sends := [(server, ServerMessage.error "roomId is required")], binding := binding, rooms := rooms }
    else if msg.peerId = "" then
      { sends := [(server, ServerMessage.error "peerId is required")], binding := binding, rooms := rooms }
    else
      match binding with
      | some b =>
        if b.peerId ≠ msg.peerId then
          { sends := [(server, ServerMessage.error "peerId is different")], binding := some b, rooms := rooms }
        else if b.roomId ≠ msg.roomId then
          { sends := [(server, ServerMessage.error "roomId is different")], binding := some b, rooms := rooms }
        else
          wsCore server (some b) rooms msg
      | none => wsCore server none rooms msg

end Push

/-! Concrete scenario states, each built purely by running the embedded
handlers from the empty registry. -/

/-- A join message of the polling variant with no sendingTo list, as a
client that does not enumerate recipients would post it. -/
def plainJoin (pid : String) (d : Payload) : Polling.SignalingMessage :=
  .storable { type := .join, roomId := "R", peerId := pid, payload := d,
              sendingTo := none, deliveredTo := none }

/-- Registry after alice then bob join room R with no sendingTo lists. -/
def c1Rooms : Polling.Rooms :=
  (Polling.post (some (plainJoin "bob" "pb")) 1
    (Polling.post (some (plainJoin "alice" "pa")) 0 Polling.emptyRooms).2).2

/-- The pull by bob against the two-join room. -/
def c1Pull : Polling.Response × Polling.Rooms := Polling.get "R" "bob" 2 c1Rooms

/-- The room holding both join broadcasts, as stored before the pull. -/
def c1Room : Polling.Room :=
  { id := "R"
    peers := [⟨"alice", "pa", 0⟩, ⟨"bob", "pb", 1⟩]
    messages := [⟨.join, "R", "alice", "pa", none, some []⟩,
                 ⟨.join, "R", "bob", "pb", none, some []⟩]
    createdAt := 0 }

/-- Registry whose one room was created at time 0 and updated (a re-join
refreshing alice's lastSeenAt) at time 9000000, one millisecond before the
sweep runs. -/
def c2Rooms : Polling.Rooms :=
  (Polling.post (some (plainJoin "alice" "pa")) 9000000
    (Polling.post (some (plainJoin "alice" "pa")) 0 Polling.emptyRooms).2).2

/-- The room of the c2 scenario as stored before the sweep. -/
def c2Room : Polling.Room :=
  { id := "R"
    peers := [⟨"alice", "pa", 9000000⟩]
    messages := [⟨.join, "R", "alice", "pa", none, some []⟩,
                 ⟨.join, "R", "alice", "pa", none, some []⟩]
    createdAt := 0 }

/-- Registry after alice and bob join, alice posts an offer addressed to
bob, and alice leaves. -/
def c3Rooms : Polling.Rooms :=
  (Polling.post (some (.leave "R" "alice")) 3
    (Polling.post (some (.storable ⟨.offer, "R", "alice", "sdp", some ["bob"], none⟩)) 2
      (Polling.post (some (plainJoin "bob" "pb")) 1
        (Polling.post (some (plainJoin "alice" "pa")) 0 Polling.emptyRooms).2).2).2).2

/-- The pull by bob after alice has left. -/
def c3Pull : Polling.Response × Polling.Rooms := Polling.get "R" "bob" 4 c3Rooms

/-- The stored room of the c3 scenario after alice's leave. -/
def c3Room : Polling.Room :=
  { id := "R"
    peers := [⟨"bob", "pb", 1⟩]
    messages := [⟨.join, "R", "alice", "pa", none, some []⟩,
                 ⟨.join, "R", "bob", "pb", none, some []⟩,
                 ⟨.offer, "R", "alice", "sdp", some ["bob"], some []⟩]
    createdAt := 0 }

/-- A two-peer room used to instantiate general polling theorems. -/
def demoRoom : Polling.Room :=
  { id := "R"
    peers := [⟨"alice", "pa", 0⟩, ⟨"bob", "pb", 0⟩]
    messages := [⟨.offer, "R", "alice", "sdp", some ["bob"], some []⟩]
    createdAt := 0 }

/-- A registry holding only demoRoom under R. -/
def demoRooms : Polling.Rooms := Polling.setRoom Polling.emptyRooms "R" demoRoom

/-- Registry after alice joins listing bob as recipient, bob joins listing
alice, and bob pulls once, so bob has received alice's join broadcast. -/
def c6Rooms : Polling.Rooms :=
  (Polling.get "R" "bob" 2
    (Polling.post (some (.storable ⟨.join, "R", "bob", "pb", some ["alice"], none⟩)) 1
      (Polling.post (some (.storable ⟨.join, "R", "alice", "pa", some ["bob"], none⟩)) 0
        Polling.emptyRooms).2).2).2

/-- The stored room of the c6 scenario after bob's pull. -/
def c6Room : Polling.Room :=
  { id := "R"
    peers := [⟨"alice", "pa", 0⟩, ⟨"bob", "pb", 1⟩]
    messages := [⟨.join, "R", "alice", "pa", some ["bob"], some ["bob"]⟩,
                 ⟨.join, "R", "bob", "pb", some ["alice"], some []⟩]
    createdAt := 0 }

/-- The snapshot reply of a later post by alice in the c6 scenario. -/
def c6Snap : Polling.Response :=
  (Polling.post (some (.storable ⟨.offer, "R", "alice", "x", some ["bob"], none⟩)) 3 c6Rooms).1

/-- Push scenario: alice joins room R on connection 7. -/
def c5E0 : Push.Effect :=
  Push.handleWSMessage 7 none Push.emptyRooms (some (.join "R" "alice" "ia"))

/-- Push scenario: on the same connection 7, alice sends an offer addressed
to her own peer id. -/
def c5E1 : Push.Effect :=
  Push.handleWSMessage 7 c5E0.binding c5E0.rooms (some (.rtc .offer "R" "alice" "alice" "sdp"))

/-- A push registry holding room S with one connected peer carol. -/
def c5WRooms : Push.Rooms :=
  Push.setRoom Push.emptyRooms "S" { id := "S", peers := [⟨"carol", "ic", some 9⟩] }

/-- Push scenario: connection 7 binds as alice in room R. -/
def c8E1 : Push.Effect :=
  Push.handleWSMessage 7 none Push.emptyRooms (some (.join "R" "alice" "ia"))

/-- Push scenario: the bound connection sends a leave, clearing the binding
and deleting the now-empty room. -/
def c8E2 : Push.Effect :=
  Push.handleWSMessage 7 c8E1.binding c8E1.rooms (some (.leave "R" "alice"))

/-- Push scenario: the same connection then joins room S as bob. -/
def c8E3 : Push.Effect :=
  Push.handleWSMessage 7 c8E2.binding c8E2.rooms (some (.join "S" "bob" "ib"))

/-! Theorems. -/

/-- Looking up the key just stored yields the stored room. -/
theorem Polling.setRoom_self (rs : Polling.Rooms) (id : String) (r : Polling.Room) :
    Polling.setRoom rs id r id = some r := by
  simp [Polling.setRoom]

/-- Storing a room never erases any key of the registry. -/
theorem Polling.setRoom_isSome (rs : Polling.Rooms) (id x : String) (r : Polling.Room)
    (h : (rs x).isSome = true) : ((Polling.setRoom rs id r) x).isSome = true := by
  unfold Polling.setRoom
  by_cases hx : x = id <;> simp [hx, h]

/-- A message that has gone through one pull step for a peer is never
selected again for that peer: either it was not selected, or it now carries
the peer in deliveredTo. -/
theorem Polling.pullSelect_pullStep (pid : String) (m : Polling.StorableMessage) :
    Polling.pullSelect pid (Polling.pullStep pid m) = false := by
  unfold Polling.pullStep
  split
  case isTrue h =>
    simp only [Polling.pullSelect, Polling.markDelivered]
    simp
  case isFalse h =>
    simpa using h

/-- C4.  Two consecutive queries by the same peer on the same room with no
intervening post deliver nothing the second time: every message the first
query delivered was recorded in its deliveredTo and is excluded thereafter,
and no branch of the query handler adds messages. -/
theorem c4_second_pull_returns_empty
    (rs : Polling.Rooms) (rid pid : String) (n1 n2 : Nat) :
    ((Polling.get rid pid n2 (Polling.get rid pid n1 rs).2).1).newMessages = [] := by
  by_cases h : rid = "" ∨ pid = ""
  · simp [Polling.get, h, Polling.Response.newMessages]
  · cases hr : rs rid with
    | none =>
      have h1 : (Polling.get rid pid n1 rs).2 = rs := by
        simp [Polling.get, h, hr]
      rw [h1]
      simp [Polling.get, h, hr, Polling.Response.newMessages, Polling.freshRoom]
    | some room =>
      set rs1 := (Polling.get rid pid n1 rs).2 with hrs1
      have h1 : rs1 rid =
          some { room with messages :=
            (room.messages.map (Polling.pullStep pid)).filter (Polling.retainB room.peers) } := by
        rw [hrs1]
        simp [Polling.get, h, hr, Polling.setRoom_self]
      have h2 : ∀ m ∈ (room.messages.map (Polling.pullStep pid)).filter
          (Polling.retainB room.peers), Polling.pullSelect pid m = false := by
        intro m hm
        rcases List.mem_filter.mp hm with ⟨hmem, _⟩
        rcases List.mem_map.mp hmem with ⟨m0, _, hstep⟩
        rw [← hstep]
        exact Polling.pullSelect_pullStep pid m0
      have h3 : ((room.messages.map (Polling.pullStep pid)).filter
          (Polling.retainB room.peers)).filter (Polling.pullSelect pid) = [] := by
        apply List.filter_eq_nil_iff.mpr
        intro a ha
        simp [h2 a ha]
      simp [Polling.get, h, h1, h3, Polling.Response.newMessages]

/-- C2 amended.  The periodic sweep evicts a room exactly when the sweep
time minus the room's immutable createdAt exceeds the timeout constant,
whose value is 9000000 ms (150 minutes) despite its five-minute name; the
room's update activity plays no role in eviction. -/
theorem c2_sweep_evicts_iff_createdAt_expired :
    Polling.ROOM_TIMEOUT_5_MINUTES = 9000000 ∧
    ∀ (t : Nat) (rs : Polling.Rooms) (rid : String) (r : Polling.Room),
      Polling.scheduled t rs rid = some r ↔
        rs rid = some r ∧ t - r.createdAt ≤ Polling.ROOM_TIMEOUT_5_MINUTES := by
  refine ⟨rfl, ?_⟩
  intro t rs rid r
  unfold Polling.scheduled
  cases hr : rs rid with
  | none => simp
  | some r0 =>
    constructor
    · intro h1
      by_cases hc : t - r0.createdAt > Polling.ROOM_TIMEOUT_5_MINUTES
      · simp [hc] at h1
      · simp [hc] at h1
        subst h1
        exact ⟨rfl, by omega⟩
    · rintro ⟨h1, h2⟩
      injection h1 with h1
      subst h1
      simp
      omega

/-- C3 amended.  A leave message removes the peer from the room's directory
(idempotently, by filtering the peer list) but purges nothing from the
pending mailbox: the stored room after the leave keeps its message list
unchanged, so messages authored by or addressed to the departed peer remain
deliverable. -/
theorem c3_leave_removes_peer_keeps_mailbox
    (rs : Polling.Rooms) (now : Nat) (rid pid : String) (r : Polling.Room)
    (hrid : rid ≠ "") (hpid : pid ≠ "") (hr : rs rid = some r) :
    (Polling.post (some (.leave rid pid)) now rs).2 rid =
      some { r with peers := r.peers.filter (fun p => !(p.id == pid)) } := by
  simp [Polling.post, hrid, hpid, hr, Polling.setRoom_self]

/-- Witness for the C3 amended theorem at a concrete two-peer room: after
alice's leave the stored room keeps the pending offer authored by alice and
only the directory entry is gone. -/
theorem c3_leave_removes_peer_keeps_mailbox_witness :
    (Polling.post (some (.leave "R" "alice")) 5 demoRooms).2 "R" =
      some { demoRoom with
             peers := demoRoom.peers.filter (fun p => !(p.id == "alice")) } :=
  c3_leave_removes_peer_keeps_mailbox demoRooms 5 "R" "alice" demoRoom
    (by decide) (by decide) (by decide)

/-- C6 amended.  After any query on an existing room, every message still
retained in the stored room fails the code's coverage test: its deliveredTo
is absent, or, for a join, some current room member, the author included,
is missing from its deliveredTo, or, for any other kind, its deliveredTo is
shorter than the recipient count max(1, length of sendingTo).  The join
recipient set the purge really uses is all current members including the
author, so a join outlives the delivery to every other member while its
author stays in the room, and purging happens only inside query handling. -/
theorem c6_retained_only_while_uncovered
    (rs : Polling.Rooms) (rid pid : String) (now : Nat) (r : Polling.Room)
    (h1 : rid ≠ "") (h2 : pid ≠ "") (hr : rs rid = some r) :
    ∃ r2, (Polling.get rid pid now rs).2 rid = some r2 ∧ r2.peers = r.peers ∧
      ∀ m ∈ r2.messages,
        m.deliveredTo = none ∨
        ∃ dt, m.deliveredTo = some dt ∧
          ((m.type = .join ∧ ∃ p ∈ r.peers, dt.contains p.id = false) ∨
           (m.type ≠ .join ∧ dt.length < Polling.sendingToLen m)) := by
  refine ⟨{ r with messages :=
      (r.messages.map (Polling.pullStep pid)).filter (Polling.retainB r.peers) }, ?_, rfl, ?_⟩
  · simp [Polling.get, h1, h2, hr, Polling.setRoom_self]
  · intro m hm
    rcases List.mem_filter.mp hm with ⟨_, hret⟩
    unfold Polling.retainB at hret
    cases hdt : m.deliveredTo with
    | none => exact Or.inl rfl
    | some dt =>
      have hret2 : (if m.type = Polling.StorableType.join then
          r.peers.any fun p => !dt.contains p.id
        else decide (dt.length < Polling.sendingToLen m)) = true := by
        rw [hdt] at hret
        exact hret
      refine Or.inr ⟨dt, rfl, ?_⟩
      by_cases hj : m.type = .join
      · rw [if_pos hj] at hret2
        rcases List.any_eq_true.mp hret2 with ⟨p, hp, hb⟩
        exact Or.inl ⟨hj, ⟨p, hp, by simpa using hb⟩⟩
      · rw [if_neg hj] at hret2
        exact Or.inr ⟨hj, by simpa using hret2⟩

/-- Witness for the C6 amended theorem at a concrete room: after bob pulls
the single offer addressed to him, the stored room retains only messages
failing the coverage test (here, none). -/
theorem c6_retained_only_while_uncovered_witness :
    ∃ r2, (Polling.get "R" "bob" 9 demoRooms).2 "R" = some r2 ∧
      r2.peers = demoRoom.peers ∧
      ∀ m ∈ r2.messages,
        m.deliveredTo = none ∨
        ∃ dt, m.deliveredTo = some dt ∧
          ((m.type = .join ∧ ∃ p ∈ demoRoom.peers, dt.contains p.id = false) ∨
           (m.type ≠ .join ∧ dt.length < Polling.sendingToLen m)) :=
  c6_retained_only_while_uncovered demoRooms "R" "bob" 9 demoRoom
    (by decide) (by decide) (by decide)

/-- Every valid non-ping post replies with a room value and stores exactly
that room under the message's roomId. -/
theorem Polling.post_shape (rs : Polling.Rooms) (now : Nat)
    (m : Polling.SignalingMessage) (hp : m ≠ .ping)
    (h : ¬(m.roomId = "" ∨ m.peerId = "")) :
    ∃ r2, Polling.post (some m) now rs =
      (.room r2, Polling.setRoom rs m.roomId r2) := by
  cases m with
  | ping => exact absurd rfl hp
  | leave rid pid =>
    simp only [Polling.SignalingMessage.roomId, Polling.SignalingMessage.peerId] at h
    exact ⟨_, by simp [Polling.post, Polling.SignalingMessage.roomId, h]; exact ⟨rfl, rfl⟩⟩
  | storable m0 =>
    simp only [Polling.SignalingMessage.roomId, Polling.SignalingMessage.peerId] at h
    cases ht : m0.type
    case join =>
      exact ⟨_, by simp [Polling.post, Polling.SignalingMessage.roomId, h, ht]; exact ⟨rfl, rfl⟩⟩
    case offer =>
      exact ⟨_, by simp [Polling.post, Polling.SignalingMessage.roomId, h, ht]; exact ⟨rfl, rfl⟩⟩
    case answer =>
      exact ⟨_, by simp [Polling.post, Polling.SignalingMessage.roomId, h, ht]; exact ⟨rfl, rfl⟩⟩
    case iceCandidate =>
      exact ⟨_, by simp [Polling.post, Polling.SignalingMessage.roomId, h, ht]; exact ⟨rfl, rfl⟩⟩

/-- No branch of the post handler ever removes a room from the registry. -/
theorem Polling.post_preserves_rooms (body : Option Polling.SignalingMessage)
    (now : Nat) (rs : Polling.Rooms) (x : String) (h : (rs x).isSome = true) :
    ((Polling.post body now rs).2 x).isSome = true := by
  cases body with
  | none => simpa using h
  | some m =>
    cases m with
    | ping => simpa using h
    | leave rid pid =>
      simp only [Polling.post]
      split
      · simpa using h
      · exact Polling.setRoom_isSome _ _ _ _ h
    | storable m0 =>
      simp only [Polling.post]
      split
      · simpa using h
      · cases hty : m0.type <;> simp only [hty] <;>
          exact Polling.setRoom_isSome _ _ _ _ h

/-- No branch of the query handler ever removes a room from the registry. -/
theorem Polling.get_preserves_rooms (rid pid : String) (now : Nat)
    (rs : Polling.Rooms) (x : String) (h : (rs x).isSome = true) :
    ((Polling.get rid pid now rs).2 x).isSome = true := by
  simp only [Polling.get]
  split
  · simpa using h
  · cases hr : rs rid with
    | none => simpa using h
    | some room =>
      simp only [hr]
      exact Polling.setRoom_isSome _ _ _ _ h

/-- C9.  Posting a leave (or offer/answer/candidate) naming a roomId absent
from the registry lazily creates and stores a room under that id: a leave
on a nonexistent room leaves behind an empty room (no peers, no messages),
an offer/answer/candidate leaves behind a peerless room holding just that
message; and no post or query ever removes a room, so the stored room
persists until the time-based sweep. -/
theorem c9_absent_room_created_and_stored :
    (∀ (rs : Polling.Rooms) (now : Nat) (rid pid : String),
      rid ≠ "" → pid ≠ "" → rs rid = none →
      (Polling.post (some (.leave rid pid)) now rs).2 rid =
        some (Polling.freshRoom rid now)) ∧
    (∀ (rs : Polling.Rooms) (now : Nat) (m : Polling.StorableMessage),
      m.type ≠ .join → m.roomId ≠ "" → m.peerId ≠ "" → rs m.roomId = none →
      (Polling.post (some (.storable m)) now rs).2 m.roomId =
        some { id := m.roomId, peers := [],
               messages := [{ m with deliveredTo := some [] }], createdAt := now }) ∧
    (∀ (body : Option Polling.SignalingMessage) (now : Nat) (rs : Polling.Rooms)
        (x : String), (rs x).isSome = true →
      ((Polling.post body now rs).2 x).isSome = true) ∧
    (∀ (rid pid : String) (now : Nat) (rs : Polling.Rooms) (x : String),
      (rs x).isSome = true → ((Polling.get rid pid now rs).2 x).isSome = true) := by
  refine ⟨?_, ?_, Polling.post_preserves_rooms, Polling.get_preserves_rooms⟩
  · intro rs now rid pid h1 h2 hr
    simp [Polling.post, h1, h2, hr, Polling.setRoom_self, Polling.freshRoom]
  · intro rs now m hj h1 h2 hr
    cases ht : m.type with
    | join => exact absurd ht hj
    | offer =>
      simp [Polling.post, h1, h2, hr, ht, Polling.setRoom_self, Polling.freshRoom]
    | answer =>
      simp [Polling.post, h1, h2, hr, ht, Polling.setRoom_self, Polling.freshRoom]
    | iceCandidate =>
      simp [Polling.post, h1, h2, hr, ht, Polling.setRoom_self, Polling.freshRoom]

/-- Witness for C9 at concrete inputs: leaving the nonexistent room Z
stores an empty room under Z; posting an offer into the nonexistent room Q
stores a peerless room holding only the offer; and both preservation parts
applied to a stored room. -/
theorem c9_absent_room_created_and_stored_witness :
    (Polling.post (some (.leave "Z" "alice")) 4 Polling.emptyRooms).2 "Z" =
      some (Polling.freshRoom "Z" 4) ∧
    (Polling.post (some (.storable ⟨.offer, "Q", "alice", "sdp", some ["bob"], none⟩))
        6 Polling.emptyRooms).2 "Q" =
      some { id := "Q", peers := [],
             messages := [⟨.offer, "Q", "alice", "sdp", some ["bob"], some []⟩],
             createdAt := 6 } ∧
    ((Polling.post (some (plainJoin "eve" "pe")) 7 demoRooms).2 "R").isSome = true ∧
    ((Polling.get "X" "y" 8 demoRooms).2 "R").isSome = true :=
  ⟨c9_absent_room_created_and_stored.1 Polling.emptyRooms 4 "Z" "alice"
      (by decide) (by decide) rfl,
   c9_absent_room_created_and_stored.2.1 Polling.emptyRooms 6
      ⟨.offer, "Q", "alice", "sdp", some ["bob"], none⟩
      (by decide) (by decide) (by decide) rfl,
   c9_absent_room_created_and_stored.2.2.1 (some (plainJoin "eve" "pe")) 7 demoRooms "R"
      (by decide),
   c9_absent_room_created_and_stored.2.2.2 "X" "y" 8 demoRooms "R" (by decide)⟩

/-- C10.  Every valid non-ping post replies with the room's entire stored
state: the reply's room is exactly the room left in the registry, in
particular its full pending message list with payloads and deliveredTo
sets, regardless of who posted; only the query handler restricts the
reply's messages to the newly delivered subset for the querying peer, while
storing the full retained list. -/
theorem c10_post_full_snapshot_query_restricted :
    (∀ (rs : Polling.Rooms) (now : Nat) (m : Polling.SignalingMessage),
      m ≠ .ping → m.roomId ≠ "" → m.peerId ≠ "" →
      ∃ r2, (Polling.post (some m) now rs).1 = .room r2 ∧
        (Polling.post (some m) now rs).2 m.roomId = some r2) ∧
    (∀ (rs : Polling.Rooms) (rid pid : String) (now : Nat) (r : Polling.Room),
      rid ≠ "" → pid ≠ "" → rs rid = some r →
      ∃ r2, (Polling.get rid pid now rs).2 rid = some r2 ∧
        (Polling.get rid pid now rs).1 =
          .room { r2 with messages :=
            (r.messages.filter (Polling.pullSelect pid)).map (Polling.markDelivered pid) }) := by
  constructor
  · intro rs now m hp h1 h2
    have h : ¬(m.roomId = "" ∨ m.peerId = "") := by
      rintro (hc | hc)
      · exact h1 hc
      · exact h2 hc
    rcases Polling.post_shape rs now m hp h with ⟨r2, hs⟩
    exact ⟨r2, by rw [hs], by rw [hs]; exact Polling.setRoom_self rs m.roomId r2⟩
  · intro rs rid pid now r h1 h2 hr
    refine ⟨{ r with messages :=
      (r.messages.map (Polling.pullStep pid)).filter (Polling.retainB r.peers) }, ?_, ?_⟩
    · simp [Polling.get, h1, h2, hr, Polling.setRoom_self]
    · simp [Polling.get, h1, h2, hr]

/-- Witness for C10 at concrete inputs: a post by bob into the demo room
replies with the stored room, whose pending list still holds alice's offer
addressed to bob (a message neither authored by nor addressed to any third
party), and a query by bob replies with only the newly delivered subset. -/
theorem c10_post_full_snapshot_query_restricted_witness :
    (∃ r2, (Polling.post (some (plainJoin "bob" "pb")) 7 demoRooms).1 = .room r2 ∧
      (Polling.post (some (plainJoin "bob" "pb")) 7 demoRooms).2 "R" = some r2) ∧
    (∃ r2, (Polling.get "R" "bob" 9 demoRooms).2 "R" = some r2 ∧
      (Polling.get "R" "bob" 9 demoRooms).1 =
        .room { r2 with messages := (demoRoom.messages.filter (Polling.pullSelect "bob")).map (Polling.markDelivered "bob") }) :=
  ⟨c10_post_full_snapshot_query_restricted.1 demoRooms 7 (plainJoin "bob" "pb")
      (by decide) (by decide) (by decide),
   c10_post_full_snapshot_query_restricted.2 demoRooms "R" "bob" 9 demoRoom
      (by decide) (by decide) (by decide)⟩

/-- C1.  The claim says a pull by a current room member who is not the
author of a pending join message always delivers that join message, with
the recipient set recomputed from current membership.  The code instead
selects only messages whose fixed sendingTo list names the puller: in the
concrete state below, bob is a member, alice's join broadcast is pending
and not authored by bob, yet bob's pull delivers nothing.  The purge pass
of the same handler judges join deliveredness against current membership,
so the selection rule contradicts the handler's own purge rule. -/
theorem c1_member_pull_misses_pending_join :
    c1Rooms "R" = some c1Room ∧
    (∃ p ∈ c1Room.peers, p.id = "bob") ∧
    (∃ m ∈ c1Room.messages, m.type = .join ∧ m.peerId = "alice" ∧
      "bob" ∉ m.deliveredTo.getD []) ∧
    c1Pull.1.newMessages = [] := by decide

/-- C2 counterexample.  The claim says a room whose last update is within
the threshold survives the sweep.  Here the room was updated (alice
re-joined, refreshing her lastSeenAt) one millisecond before the sweep, yet
the sweep evicts it, because the code compares the sweep time against the
immutable createdAt, never against any update time; moreover the threshold
constant, despite its five-minute name, is 9000000 ms. -/
theorem c2_counterexample :
    c2Rooms "R" = some c2Room ∧
    (∃ p ∈ c2Room.peers, 9000001 - p.lastSeenAt = 1) ∧
    Polling.scheduled 9000001 c2Rooms "R" = none ∧
    Polling.ROOM_TIMEOUT_5_MINUTES ≠ 5 * 60 * 1000 := by decide

/-- C3 counterexample.  The claim says that after a peer leaves, no later
pull returns a message naming that peer as author.  Here alice has left
(she is absent from the directory), yet bob's later pull still delivers
alice's pending offer: the leave handler filters the peer list and purges
nothing from the mailbox. -/
theorem c3_counterexample :
    c3Rooms "R" = some c3Room ∧
    (∀ p ∈ c3Room.peers, p.id ≠ "alice") ∧
    (∃ m ∈ c3Pull.1.newMessages, m.peerId = "alice") := by decide

/-- C5 counterexample.  The claim says the push variant never forwards an
offer envelope back to the peer that sent it, including when the sender
addresses her own peer id.  Here alice, connected on handle 7, sends an
offer with toPeerId equal to her own id, and the handler sends the
peer-offer envelope to handle 7, alice's own connection. -/
theorem c5_counterexample :
    c5E0.rooms "R" = some { id := "R", peers := [⟨"alice", "ia", some 7⟩] } ∧
    c5E0.binding = some ⟨"alice", "R"⟩ ∧
    c5E1.sends = [(7, .peerRTC .offer "alice" "sdp")] := by decide

/-- C6 counterexample.  The claim says a message is retained only while its
deliveredTo does not cover its recipients, the recipients of a join being
the other current members.  Here alice's join broadcast has been delivered
to every current member other than its author, yet it is still retained,
and it still appears in the full-room snapshot returned by a later post:
the purge rule counts the author herself among the join's recipients, and
the author can never be delivered her own message. -/
theorem c6_counterexample :
    c6Rooms "R" = some c6Room ∧
    (∃ m ∈ c6Room.messages, m.type = .join ∧ m.peerId = "alice" ∧
      (∀ p ∈ c6Room.peers, p.id ≠ "alice" → p.id ∈ m.deliveredTo.getD [])) ∧
    (∃ m ∈ c6Snap.newMessages, m.type = .join ∧ m.peerId = "alice") := by decide

/-- C8 counterexample.  The claim says a connection is bound to the
(roomId, peerId) pair of its first accepted message for its entire life,
every later message naming a different pair being answered with an error.
Here connection 7 first binds as alice in room R, then sends a leave, and
its next message joins room S as bob: a different pair on the same live
connection, accepted with no error reply and with a room-state change. -/
theorem c8_counterexample :
    c8E1.binding = some ⟨"alice", "R"⟩ ∧
    c8E3.binding = some ⟨"bob", "S"⟩ ∧
    c8E3.sends.all (fun s => !(s.2.isErr)) = true ∧
    c8E3.rooms "S" = some { id := "S", peers := [⟨"bob", "ib", some 7⟩] } := by decide

/-- Looking up the key just stored in the push registry yields the stored
room. -/
theorem Push.setRoomLookup (rs : Push.Rooms) (id : String) (r : Push.Room) :
    Push.setRoom rs id r id = some r := by
  simp [Push.setRoom]

/-- C7.  An unparseable body, and a non-ping message missing roomId or
peerId, are rejected with a client error before any room-state mutation, in
both variants: the reply is an error and the registry (and, in the push
variant, the connection binding) is returned exactly as it was. -/
theorem c7_invalid_input_rejected_without_mutation :
    (∀ (rs : Polling.Rooms) (now : Nat),
      Polling.post none now rs = (.error "Invalid JSON", rs)) ∧
    (∀ (rs : Polling.Rooms) (now : Nat) (m : Polling.SignalingMessage),
      m ≠ .ping → (m.roomId = "" ∨ m.peerId = "") →
      Polling.post (some m) now rs =
        (.error "roomId and peerId props are required", rs)) ∧
    (∀ (server : Nat) (b : Option Push.Binding) (rs : Push.Rooms),
      Push.handleWSMessage server b rs none =
        { sends := [(server, .error "Invalid JSON")], binding := b, rooms := rs }) ∧
    (∀ (server : Nat) (b : Option Push.Binding) (rs : Push.Rooms)
        (cm : Push.ClientMessage),
      cm ≠ .ping → (cm.roomId = "" ∨ cm.peerId = "") →
      ∃ e, Push.handleWSMessage server b rs (some cm) =
        { sends := [(server, Push.ServerMessage.error e)], binding := b, rooms := rs }) := by
  refine ⟨fun rs now => rfl, ?_, fun server b rs => rfl, ?_⟩
  · intro rs now m hp hv
    cases m with
    | ping => exact absurd rfl hp
    | leave rid pid =>
      simp only [Polling.SignalingMessage.roomId, Polling.SignalingMessage.peerId] at hv
      simp [Polling.post, hv]
    | storable m0 =>
      simp only [Polling.SignalingMessage.roomId, Polling.SignalingMessage.peerId] at hv
      simp [Polling.post, hv]
  · intro server b rs cm hp hv
    cases cm with
    | ping => exact absurd rfl hp
    | join rid pid info =>
      simp only [Push.ClientMessage.roomId, Push.ClientMessage.peerId] at hv
      by_cases h1 : rid = ""
      · exact ⟨"roomId is required", by simp [Push.handleWSMessage, Push.ClientMessage.roomId, h1]⟩
      · rcases hv with h | h
        · exact absurd h h1
        · exact ⟨"peerId is required", by
            simp [Push.handleWSMessage, Push.ClientMessage.roomId,
              Push.ClientMessage.peerId, h1, h]⟩
    | rtc t rid pid toPid d =>
      simp only [Push.ClientMessage.roomId, Push.ClientMessage.peerId] at hv
      by_cases h1 : rid = ""
      · exact ⟨"roomId is required", by simp [Push.handleWSMessage, Push.ClientMessage.roomId, h1]⟩
      · rcases hv with h | h
        · exact absurd h h1
        · exact ⟨"peerId is required", by
            simp [Push.handleWSMessage, Push.ClientMessage.roomId,
              Push.ClientMessage.peerId, h1, h]⟩
    | leave rid pid =>
      simp only [Push.ClientMessage.roomId, Push.ClientMessage.peerId] at hv
      by_cases h1 : rid = ""
      · exact ⟨"roomId is required", by simp [Push.handleWSMessage, Push.ClientMessage.roomId, h1]⟩
      · rcases hv with h | h
        · exact absurd h h1
        · exact ⟨"peerId is required", by
            simp [Push.handleWSMessage, Push.ClientMessage.roomId,
              Push.ClientMessage.peerId, h1, h]⟩

/-- Witness for C7 at concrete inputs: a leave with an empty roomId is
rejected by the polling variant, and a join with an empty peerId is
rejected by the push variant, both without touching the registry. -/
theorem c7_invalid_input_rejected_without_mutation_witness :
    Polling.post (some (.leave "" "alice")) 3 demoRooms =
      (.error "roomId and peerId props are required", demoRooms) ∧
    ∃ e, Push.handleWSMessage 7 none Push.emptyRooms (some (.join "R" "" "ia")) =
      { sends := [(7, Push.ServerMessage.error e)], binding := none,
        rooms := Push.emptyRooms } :=
  ⟨c7_invalid_input_rejected_without_mutation.2.1 demoRooms 3 (.leave "" "alice")
      (by decide) (Or.inl rfl),
   c7_invalid_input_rejected_without_mutation.2.2.2 7 none Push.emptyRooms
      (.join "R" "" "ia") (by decide) (Or.inr rfl)⟩

/-- C8 amended.  While a connection holds a binding, any message naming a
peerId or roomId different from the bound pair is answered with a single
error reply, the binding and the registry are left exactly as they were,
and the handler emits no close action, so the connection stays open.  The
binding, however, lasts only until the connection sends a leave: a matching
leave clears it, after which the next accepted message rebinds the
connection, possibly to a different pair. -/
theorem c8_bound_connection_rejects_mismatch :
    (∀ (server : Nat) (rs : Push.Rooms) (b : Push.Binding)
        (cm : Push.ClientMessage),
      cm ≠ .ping → cm.roomId ≠ "" → cm.peerId ≠ "" →
      (cm.peerId ≠ b.peerId ∨ cm.roomId ≠ b.roomId) →
      ∃ e, Push.handleWSMessage server (some b) rs (some cm) =
        { sends := [(server, Push.ServerMessage.error e)], binding := some b,
          rooms := rs }) ∧
    (∀ (server : Nat) (rs : Push.Rooms) (rid pid : String),
      rid ≠ "" → pid ≠ "" →
      (Push.handleWSMessage server (some ⟨pid, rid⟩) rs
        (some (.leave rid pid))).binding = none) := by
  constructor
  · intro server rs b cm hp h1 h2 hmis
    cases cm with
    | ping => exact absurd rfl hp
    | join rid pid info =>
      simp only [Push.ClientMessage.roomId, Push.ClientMessage.peerId] at h1 h2 hmis
      by_cases hbp : b.peerId = pid
      · have hbr : b.roomId ≠ rid := by
          rcases hmis with h | h
          · exact absurd hbp.symm h
          · exact fun hc => h hc.symm
        exact ⟨"roomId is different", by
          simp [Push.handleWSMessage, Push.ClientMessage.roomId,
            Push.ClientMessage.peerId, h1, h2, hbp, hbr]⟩
      · exact ⟨"peerId is different", by
          simp [Push.handleWSMessage, Push.ClientMessage.roomId,
            Push.ClientMessage.peerId, h1, h2, hbp]⟩
    | rtc t rid pid toPid d =>
      simp only [Push.ClientMessage.roomId, Push.ClientMessage.peerId] at h1 h2 hmis
      by_cases hbp : b.peerId = pid
      · have hbr : b.roomId ≠ rid := by
          rcases hmis with h | h
          · exact absurd hbp.symm h
          · exact fun hc => h hc.symm
        exact ⟨"roomId is different", by
          simp [Push.handleWSMessage, Push.ClientMessage.roomId,
            Push.ClientMessage.peerId, h1, h2, hbp, hbr]⟩
      · exact ⟨"peerId is different", by
          simp [Push.handleWSMessage, Push.ClientMessage.roomId,
            Push.ClientMessage.peerId, h1, h2, hbp]⟩
    | leave rid pid =>
      simp only [Push.ClientMessage.roomId, Push.ClientMessage.peerId] at h1 h2 hmis
      by_cases hbp : b.peerId = pid
      · have hbr : b.roomId ≠ rid := by
          rcases hmis with h | h
          · exact absurd hbp.symm h
          · exact fun hc => h hc.symm
        exact ⟨"roomId is different", by
          simp [Push.handleWSMessage, Push.ClientMessage.roomId,
            Push.ClientMessage.peerId, h1, h2, hbp, hbr]⟩
      · exact ⟨"peerId is different", by
          simp [Push.handleWSMessage, Push.ClientMessage.roomId,
            Push.ClientMessage.peerId, h1, h2, hbp]⟩
  · intro server rs rid pid h1 h2
    simp [Push.handleWSMessage, Push.ClientMessage.roomId,
      Push.ClientMessage.peerId, h1, h2, Push.wsCore]

/-- Witness for the C8 amended theorem at concrete inputs: a bound
connection sending a join for a different peer id gets an error reply with
untouched state, and a matching leave clears the binding. -/
theorem c8_bound_connection_rejects_mismatch_witness :
    (∃ e, Push.handleWSMessage 3 (some ⟨"alice", "R"⟩) Push.emptyRooms
        (some (.join "R" "eve" "ie")) =
      { sends := [(3, Push.ServerMessage.error e)],
        binding := some ⟨"alice", "R"⟩, rooms := Push.emptyRooms }) ∧
    (Push.handleWSMessage 3 (some ⟨"alice", "R"⟩) Push.emptyRooms
        (some (.leave "R" "alice"))).binding = none :=
  ⟨c8_bound_connection_rejects_mismatch.1 3 Push.emptyRooms ⟨"alice", "R"⟩
      (.join "R" "eve" "ie") (by decide) (by decide) (by decide) (Or.inl (by decide)),
   c8_bound_connection_rejects_mismatch.2 3 Push.emptyRooms "R" "alice"
      (by decide) (by decide)⟩

/-- C5 amended.  The polling variant never delivers a message to its
author: every message a query returns has an author different from the
querying peer.  The push variant never sends a join broadcast to a peer
entry carrying the joiner's id: every peer-join event emitted goes to the
connection of a stored peer whose id differs from the joiner's.  An
offer/answer/candidate envelope, however, is forwarded to whichever peer
the message's toPeerId names, determined solely by that lookup, so a sender
addressing its own peer id is sent its own envelope. -/
theorem c5_author_exclusion :
    (∀ (rs : Polling.Rooms) (rid pid : String) (now : Nat)
        (m : Polling.StorableMessage),
      m ∈ ((Polling.get rid pid now rs).1).newMessages → m.peerId ≠ pid) ∧
    (∀ (server : Nat) (b : Option Push.Binding) (rs : Push.Rooms)
        (rid pid : String) (info : Payload) (c : Nat) (q : String) (i : Payload),
      (b = none ∨ b = some ⟨pid, rid⟩) → rid ≠ "" → pid ≠ "" →
      (c, Push.ServerMessage.peerJoin q i) ∈
        (Push.handleWSMessage server b rs (some (.join rid pid info))).sends →
      ∃ r2, (Push.handleWSMessage server b rs
          (some (.join rid pid info))).rooms rid = some r2 ∧
        ∃ p ∈ r2.peers, p.id ≠ pid ∧ p.socket = some c) ∧
    (∀ (server : Nat) (rs : Push.Rooms) (t : Push.RTCType)
        (rid pid toPid : String) (d : Payload) (r : Push.Room),
      rid ≠ "" → pid ≠ "" → rs rid = some r →
      (Push.handleWSMessage server (some ⟨pid, rid⟩) rs
          (some (.rtc t rid pid toPid d))).sends =
        ((r.peers.find? (fun p => p.id == toPid)).bind (fun p => p.socket)).elim []
          (fun s => [(s, Push.ServerMessage.peerRTC t pid d)])) := by
  refine ⟨?_, ?_, ?_⟩
  · intro rs rid pid now m hm
    by_cases h : rid = "" ∨ pid = ""
    · simp [Polling.get, h, Polling.Response.newMessages] at hm
    · cases hr : rs rid with
      | none =>
        simp [Polling.get, h, hr, Polling.Response.newMessages, Polling.freshRoom] at hm
      | some room =>
        have he : ((Polling.get rid pid now rs).1).newMessages =
            (room.messages.filter (Polling.pullSelect pid)).map
              (Polling.markDelivered pid) := by
          simp [Polling.get, h, hr, Polling.Response.newMessages]
        rw [he] at hm
        rcases List.mem_map.mp hm with ⟨m0, hm0, hmark⟩
        rcases List.mem_filter.mp hm0 with ⟨_, hsel⟩
        have hne : ¬(m0.peerId = pid) := by
          simp [Polling.pullSelect] at hsel
          exact hsel.1.1
        rw [← hmark]
        simpa [Polling.markDelivered] using hne
  · intro server b rs rid pid info c q i hb h1 h2 hmem
    have hred : Push.handleWSMessage server b rs (some (.join rid pid info)) =
        Push.wsCore server b rs (.join rid pid info) := by
      rcases hb with rfl | rfl
      · simp [Push.handleWSMessage, Push.ClientMessage.roomId,
          Push.ClientMessage.peerId, h1, h2]
      · simp [Push.handleWSMessage, Push.ClientMessage.roomId,
          Push.ClientMessage.peerId, h1, h2]
    rw [hred] at hmem ⊢
    simp only [Push.wsCore, Push.ClientMessage.roomId,
      Push.ClientMessage.peerId] at hmem ⊢
    rcases List.mem_append.mp hmem with hmem2 | hmem2
    · rcases List.mem_filterMap.mp hmem2 with ⟨p, hp, hps⟩
      rcases List.mem_filter.mp hp with ⟨hpin, hpb⟩
      cases hs : p.socket with
      | none => rw [hs] at hps; simp at hps
      | some s =>
        rw [hs] at hps
        simp only [Option.map_some', Option.some.injEq, Prod.mk.injEq] at hps
        have hsc : s = c := hps.1
        refine ⟨_, Push.setRoomLookup _ _ _, p, hpin, ?_, ?_⟩
        · simpa using hpb
        · rw [hs, hsc]
    · simp at hmem2
  · intro server rs t rid pid toPid d r h1 h2 hr
    have hred : Push.handleWSMessage server (some ⟨pid, rid⟩) rs
        (some (.rtc t rid pid toPid d)) =
        Push.wsCore server (some ⟨pid, rid⟩) rs (.rtc t rid pid toPid d) := by
      simp [Push.handleWSMessage, Push.ClientMessage.roomId,
        Push.ClientMessage.peerId, h1, h2]
    rw [hred]
    simp only [Push.wsCore, Push.ClientMessage.roomId,
      Push.ClientMessage.peerId, hr]
    cases hf : r.peers.find? (fun p => p.id == toPid) with
    | none => simp [hf]
    | some p =>
      cases hs : p.socket with
      | none => simp [hf, hs]
      | some s => simp [hf, hs]

/-- Witness for the C5 amended theorem at concrete inputs: the offer the
demo-room query delivers to bob is not authored by bob; alice's join into
room S broadcasts only to carol's connection 9, a stored peer with a
different id; and carol's self-addressed offer is forwarded according to
the toPeerId lookup alone. -/
theorem c5_author_exclusion_witness :
    ((⟨.offer, "R", "alice", "sdp", some ["bob"], some ["bob"]⟩ :
        Polling.StorableMessage).peerId ≠ "bob") ∧
    (∃ r2, (Push.handleWSMessage 7 none c5WRooms
        (some (.join "S" "alice" "ia"))).rooms "S" = some r2 ∧
      ∃ p ∈ r2.peers, p.id ≠ "alice" ∧ p.socket = some 9) ∧
    ((Push.handleWSMessage 3 (some ⟨"carol", "S"⟩) c5WRooms
        (some (.rtc .offer "S" "carol" "carol" "x"))).sends =
      (((⟨"S", [⟨"carol", "ic", some 9⟩]⟩ : Push.Room).peers.find?
          (fun p => p.id == "carol")).bind (fun p => p.socket)).elim []
        (fun s => [(s, Push.ServerMessage.peerRTC .offer "carol" "x")])) :=
  ⟨c5_author_exclusion.1 demoRooms "R" "bob" 11
      ⟨.offer, "R", "alice", "sdp", some ["bob"], some ["bob"]⟩ (by decide),
   c5_author_exclusion.2.1 7 none c5WRooms "S" "alice" "ia" 9 "alice" "ia"
      (Or.inl rfl) (by decide) (by decide) (by decide),
   c5_author_exclusion.2.2 3 c5WRooms .offer "S" "carol" "carol" "x"
      ⟨"S", [⟨"carol", "ic", some 9⟩]⟩ (by decide) (by decide) (by decide)⟩
